import Mathlib

/-!
Verification development for the `sparse-ternary-fma` repository.

The repository's only source file is `src/gpu-benchmark.cu`.  It contains the
device helper `unpack_trit` (lines 22-27) and the CUDA kernel
`sparse_blind_rotation_kernel` (lines 32-88), launched with one block of
`THREADS_PER_BLOCK = 256` threads and `N = 2048` (lines 13-14).

Embedding notes.
* Machine integers are embedded as `Nat`/`Int`; the narrowing conversion of an
  `int64_t` to `int` (line 60 assigns the 64-bit conditional expression to the
  32-bit `int rot`) is made explicit with `toInt32`, wrap-around two's
  complement semantics; likewise `toInt64` for negation of an `int64_t`.
* The C `%` operator on `int` (line 61) is truncated remainder, embedded as
  `Int.tmod`.
* The kernel is single-block and its inner strided loop (lines 65-81) has a
  `__syncthreads()` between every thread's read of `s_acc[src_idx]` and the
  writes `s_acc[i] = new_val`, and another after the writes.  All 256 threads
  execute exactly `N / 256 = 8` iterations of that loop, so execution is
  deterministic: iteration `k` ("chunk" `k`) first reads `s_acc` as left by
  chunks `0..k-1`, then overwrites indices `[256*k, 256*(k+1))`.  `chunkStep`
  and `rotateInPlace` embed exactly this in-place, chunked semantics; note
  that chunk `k ≥ 1` reads values that earlier chunks of the *same* step have
  already overwritten.
* The kernel's inputs `d_nonzero_indices` / `d_lwe_a` are parallel arrays read
  only at positions `0..num_nonzero-1` (lines 49-51); they are embedded as one
  list of `(lwe_idx, a_i)` pairs, and `num_nonzero = 0` corresponds to `[]`.
-/

namespace SparseTernaryFMA

/-- Polynomial degree (`#define N 2048`, line 13 of the source). -/
def N : ℕ := 2048

/-- Threads per block (`#define THREADS_PER_BLOCK 256`, line 14). -/
def THREADS_PER_BLOCK : ℕ := 256

/-- Trits per 32-bit word (`#define PACKING_FACTOR 16`, line 15). -/
def PACKING_FACTOR : ℕ := 16

/-- Wrap-around conversion of a mathematical integer to `int64_t` two's
complement (used for the `int64_t` negation `-a_i` on line 60). -/
def toInt64 (x : ℤ) : ℤ := (x + 2 ^ 63) % 2 ^ 64 - 2 ^ 63

/-- Wrap-around conversion of a mathematical integer to a 32-bit `int`
(the narrowing assignment `int rot = ...` on line 60). -/
def toInt32 (x : ℤ) : ℤ := (x + 2 ^ 31) % 2 ^ 32 - 2 ^ 31

/-- `unpack_trit` (source lines 22-27):
`mask = 0x3 << (index*2)`; `extracted = (packed_container & mask) >> (index*2)`;
returns `-1` if `extracted == 2`, else `(int8_t)extracted` (which is exact,
`extracted ≤ 3`).  The `% 2^32` keeps the `uint32_t` mask faithful. -/
def unpack_trit (packed_container : ℕ) (index : ℕ) : ℤ :=
  let mask : ℕ := (3 <<< (index * 2)) % 2 ^ 32
  let extracted : ℕ := (packed_container &&& mask) >>> (index * 2)
  if extracted = 2 then -1 else (extracted : ℤ)

/-- Rotation-amount computation (source lines 60-62):
`int rot = (s_i == 1) ? -a_i : a_i; rot = rot % N; if (rot < 0) rot += N;`.
The conditional is computed in `int64_t` and narrowed to `int` by the
assignment; `%` is C truncated remainder. -/
def computeRot (s_i : ℤ) (a_i : ℤ) : ℤ :=
  let rot0 : ℤ := toInt32 (if s_i = 1 then toInt64 (-a_i) else a_i)
  let rot1 : ℤ := rot0.tmod (N : ℤ)
  if rot1 < 0 then rot1 + (N : ℤ) else rot1

/-- The per-element negacyclic read (source lines 66-74): `src_idx = i - rot`;
if negative, add `N` and negate the value read.  For `i, rot < N` the test
`src_idx < 0` is exactly `i < rot`. -/
def negacyclicRead (s : ℕ → ℤ) (rot : ℕ) (i : ℕ) : ℤ :=
  if i < rot then -(s (i + N - rot)) else s (i - rot)

/-- One iteration ("chunk") of the strided loop at lines 65-81, performed by
all 256 threads in lockstep: every thread `t` reads its source for output
index `i = 256*k + t` from the current buffer, `__syncthreads()` (line 78),
then writes `s_acc[i]` (line 79), `__syncthreads()` (line 80).  So chunk `k`
reads the state left by chunks `0..k-1` and overwrites `[256k, 256(k+1))`. -/
def chunkStep (rot : ℕ) (s : ℕ → ℤ) (k : ℕ) : ℕ → ℤ :=
  fun i =>
    if THREADS_PER_BLOCK * k ≤ i ∧ i < THREADS_PER_BLOCK * (k + 1) then
      negacyclicRead s rot i
    else s i

/-- The full in-place rotation pass of one step (lines 65-81): the
`N / THREADS_PER_BLOCK = 8` chunks applied in order to the shared buffer. -/
def rotateInPlace (rot : ℕ) (s : ℕ → ℤ) : ℕ → ℤ :=
  (List.range (N / THREADS_PER_BLOCK)).foldl (chunkStep rot) s

/-- The source index `(i - rot) mod N` read for output index `i`
(lines 66-69). -/
def srcIdx (rot i : ℕ) : ℕ := if i < rot then i + N - rot else i - rot

/-- The value actually read at line 73 as the rotation source for output
index `i`: output `i` is written in chunk `i / 256`, whose reads see the
buffer as left by chunks `0 .. i/256 - 1` of the same step. -/
def readSourceValue (rot : ℕ) (s : ℕ → ℤ) (i : ℕ) : ℤ :=
  ((List.range (i / THREADS_PER_BLOCK)).foldl (chunkStep rot) s) (srcIdx rot i)

/-- One iteration of the sparse step loop (source lines 49-82): fetch
`lwe_idx` and `a_i`, unpack the key trit, compute the reduced rotation
amount, and apply the in-place rotation pass to the shared buffer. -/
def kernelStep (d_bk : ℕ → ℕ) (s : ℕ → ℤ) (step : ℕ × ℤ) : ℕ → ℤ :=
  let lwe_idx := step.1
  let a_i := step.2
  let packed_key := d_bk (lwe_idx / PACKING_FACTOR)
  let s_i := unpack_trit packed_key (lwe_idx % PACKING_FACTOR)
  rotateInPlace (computeRot s_i a_i).toNat s

/-- `sparse_blind_rotation_kernel` (source lines 32-88): load the accumulator
into shared memory (identity on values), run the step loop, write back. -/
def sparse_blind_rotation_kernel (d_bk : ℕ → ℕ) (steps : List (ℕ × ℤ))
    (d_acc : ℕ → ℤ) : ℕ → ℤ :=
  steps.foldl (kernelStep d_bk) d_acc

/-- Follows the spec's words (§4.3 step 4): the new accumulator's position `i`
holds the old value at `(i - rot) mod N`, negated exactly when the source
index wrapped past 0.  This is what one step is specified to produce. -/
def rotateSpec (rot : ℕ) (s : ℕ → ℤ) : ℕ → ℤ :=
  fun i => negacyclicRead s rot i

/-- Modelled from the spec: `decode_trit` (§4.1, §6) of the TritCodec.  The C
library implementing it (`include/sparse_ternary_fma.h` per the README) is
not under `src/`; only the GPU benchmark is.  Canonical mapping
0 → 0, 1 → +1, 2 → -1; reserved code 3 is rejected with an error (`none`). -/
def decode_trit (code : ℕ) : Option ℤ :=
  if code = 0 then some 0
  else if code = 1 then some 1
  else if code = 2 then some (-1)
  else none

/-- Modelled from the spec: `sparse_ternary_fma` (§4.2, §6), dense scalar
path, elementwise.  The C implementation is not under `src/`.  Each output
`C[i]` decodes the 2-bit code of trit `i` from the packed operand (16 trits
per word, trit `j` of a word at bits `2j..2j+1`, the layout `unpack_trit`
uses) and applies the spec's 3-way conditional select — `0 → 0`,
`+1 → A[i]`, `-1 → -A[i]` — with no multiplication; a reserved code
propagates the decode error. -/
def sparse_ternary_fma (A : ℕ → ℤ) (B_trit : ℕ → ℕ) (i : ℕ) : Option ℤ :=
  (decode_trit ((B_trit (i / PACKING_FACTOR) >>> ((i % PACKING_FACTOR) * 2)) &&& 3)).map
    (fun t => if t = 0 then 0 else if t = 1 then A i else -(A i))

/-- Concrete accumulator used as test data: coefficient `i` holds `i + 1`. -/
def seqAcc : ℕ → ℤ := fun i => (i : ℤ) + 1

/-- The host harness's dummy bootstrap key (line 114): every 32-bit word is
`0xAAAAAAAA`, i.e. every 2-bit code is `2`, every trit `-1`. -/
def dummyBk : ℕ → ℕ := fun _ => 0xAAAAAAAA

/-- Packed operand for the spec's concrete scenario (§8): trits
`[+1, 0, -1, 0, 0, +1, 0, -1]`, codes `[1,0,2,0,0,1,0,2]`, i.e. the word
`1 + (2 <<< 4) + (1 <<< 10) + (2 <<< 14) = 33825`. -/
def examplePackedB : ℕ → ℕ := fun _ => 33825

/-! ### Helper lemmas -/

lemma N_int : (N : ℤ) = 2048 := rfl

lemma tmod_neg_dividend (a b : ℤ) : (-a).tmod b = -(a.tmod b) := by
  simp [Int.tmod_def, Int.neg_tdiv]
  ring

lemma neg_lt_tmod (a b : ℤ) (hb : 0 < b) : -b < a.tmod b := by
  rcases le_or_lt 0 a with h | h
  · have h1 := Int.tmod_nonneg b h
    omega
  · have h2 : (-a).tmod b < b := Int.tmod_lt_of_pos _ hb
    have h3 := tmod_neg_dividend a b
    omega

lemma tmod_modEq (a n : ℤ) : a.tmod n ≡ a [ZMOD n] := by
  have h := Int.tmod_add_tdiv a n
  show a.tmod n % n = a % n
  conv_rhs => rw [← h]
  rw [Int.add_mul_emod_self_left]

lemma toInt32_modEq (x : ℤ) : toInt32 x ≡ x [ZMOD (N : ℤ)] := by
  have h : (x + 2 ^ 31) % 2 ^ 32 % 2048 = (x + 2 ^ 31) % 2048 :=
    Int.emod_emod_of_dvd _ (by norm_num)
  show toInt32 x % (N : ℤ) = x % (N : ℤ)
  rw [N_int]
  unfold toInt32
  omega

lemma toInt64_modEq (x : ℤ) : toInt64 x ≡ x [ZMOD (N : ℤ)] := by
  have h : (x + 2 ^ 63) % 2 ^ 64 % 2048 = (x + 2 ^ 63) % 2048 :=
    Int.emod_emod_of_dvd _ (by norm_num)
  show toInt64 x % (N : ℤ) = x % (N : ℤ)
  rw [N_int]
  unfold toInt64
  omega

lemma adjust_modEq (x : ℤ) : (if x < 0 then x + (N : ℤ) else x) ≡ x [ZMOD (N : ℤ)] := by
  split
  · show _ % _ = _ % _
    rw [N_int]
    omega
  · rfl

lemma computeRot_range (s_i a : ℤ) :
    0 ≤ computeRot s_i a ∧ computeRot s_i a < (N : ℤ) := by
  simp only [computeRot, N_int]
  set r0 := toInt32 (if s_i = 1 then toInt64 (-a) else a) with hr0
  have hub : r0.tmod 2048 < 2048 := Int.tmod_lt_of_pos _ (by norm_num)
  have hlb : -2048 < r0.tmod 2048 := neg_lt_tmod _ _ (by norm_num)
  split <;> omega

lemma computeRot_modEq (s_i a : ℤ) :
    computeRot s_i a ≡ (if s_i = 1 then -a else a) [ZMOD (N : ℤ)] := by
  have h1 : (if s_i = 1 then toInt64 (-a) else a) ≡
      (if s_i = 1 then -a else a) [ZMOD (N : ℤ)] := by
    split
    · exact toInt64_modEq (-a)
    · rfl
  have h2 := (toInt32_modEq (if s_i = 1 then toInt64 (-a) else a)).trans h1
  have h3 := (tmod_modEq (toInt32 (if s_i = 1 then toInt64 (-a) else a))
    (N : ℤ)).trans h2
  simp only [computeRot]
  exact (adjust_modEq _).trans h3

lemma computeRot_eq_zero_of_dvd (s_i a : ℤ) (ha : (N : ℤ) ∣ a) :
    computeRot s_i a = 0 := by
  have h1 := computeRot_range s_i a
  have h2 := computeRot_modEq s_i a
  have h3 : (if s_i = 1 then -a else a) % (N : ℤ) = 0 := by
    split
    · exact Int.emod_eq_zero_of_dvd (dvd_neg.mpr ha)
    · exact Int.emod_eq_zero_of_dvd ha
  unfold Int.ModEq at h2
  rw [h3] at h2
  rw [N_int] at h1 h2
  omega

lemma chunkStep_zero (s : ℕ → ℤ) (k : ℕ) : chunkStep 0 s k = s := by
  funext i
  simp [chunkStep, negacyclicRead]

lemma rotateInPlace_zero (s : ℕ → ℤ) : rotateInPlace 0 s = s := by
  have h : ∀ (l : List ℕ) (t : ℕ → ℤ), l.foldl (chunkStep 0) t = t := by
    intro l
    induction l with
    | nil => intro t; rfl
    | cons k tl ih => intro t; simp [List.foldl, chunkStep_zero, ih]
  exact h _ s

lemma extracted_shift_form (w i : ℕ) (hi : i < 16) :
    (w &&& ((3 <<< (i * 2)) % 2 ^ 32)) >>> (i * 2) = (w >>> (i * 2)) &&& 3 := by
  have hle : i * 2 ≤ 30 := by omega
  have hlt : (3 : ℕ) <<< (i * 2) < 2 ^ 32 := by
    rw [Nat.shiftLeft_eq]
    calc 3 * 2 ^ (i * 2) ≤ 3 * 2 ^ 30 :=
          Nat.mul_le_mul_left 3 (Nat.pow_le_pow_right (by norm_num) hle)
      _ < 2 ^ 32 := by norm_num
  rw [Nat.mod_eq_of_lt hlt]
  apply Nat.eq_of_testBit_eq
  intro j
  simp [Nat.testBit_and, Nat.testBit_shiftRight, Nat.testBit_shiftLeft]

/-! ### Claim theorems -/

/-- Claim C1, evaluated at the failing input.  The claim: one blind-rotation
step sets position `i` to the old value at `(i - rot) mod N`, negated exactly
when the source index wrapped past 0.  Failing input: accumulator `i ↦ i+1`,
one step with key position 0 (dummy key word `0xAAAAAAAA`, code 2, trit `-1`)
and rotation sample 256, so the rotation amount is 256.  The kernel's
in-place chunked update writes `-1793` at position 256 (its source, index 0,
was already overwritten by chunk 0 of the same step), while the claimed value
is the old `acc[(256-256) mod 2048] = acc[0] = 1`, no wrap, no sign flip. -/
theorem blind_rotation_step_deviates_from_claim :
    sparse_blind_rotation_kernel dummyBk [(0, 256)] seqAcc 256 = -1793 ∧
    rotateSpec 256 seqAcc 256 = 1 ∧
    sparse_blind_rotation_kernel dummyBk [(0, 256)] seqAcc 256 ≠
      rotateSpec 256 seqAcc 256 := by
  refine ⟨by decide, by decide, by decide⟩

/-- Claim C2, evaluated at the failing input.  The claim: within one step the
old accumulator is never read after any part of the new one has been written
to the same storage.  In the kernel, output index 256 is written by chunk 1
of the strided loop, whose read of source index `srcIdx 256 256 = 0` sees the
buffer after chunk 0 of the *same* step already overwrote indices `[0,256)`:
the value actually read is `-1793`, not the old accumulator's `1`. -/
theorem rotation_source_read_after_overwrite :
    readSourceValue 256 seqAcc 256 = -1793 ∧
    seqAcc (srcIdx 256 256) = 1 ∧
    readSourceValue 256 seqAcc 256 ≠ seqAcc (srcIdx 256 256) := by
  refine ⟨by decide, by decide, by decide⟩

/-- Claim C3, counterexample.  The claim: the trit decoder rejects reserved
code 3 with a distinguishable invalid-encoding error.  The spec-modelled
`decode_trit` returns `none` on code 3, but the source's `unpack_trit` is
total and returns the plain value `3` for a container whose extracted code is
3 — no error is signalled, refuting the claim. -/
theorem unpack_trit_code3_not_rejected :
    some (unpack_trit 3 0) ≠ decode_trit 3 := by decide

/-- Claim C3 as amended: `unpack_trit` does not reject reserved code 3; for
every input whose extracted 2-bit code is 3 it returns the raw value 3
(outside the trit range `{-1,0,1}`), with no error signalled. -/
theorem unpack_trit_code3_raw (w i : ℕ)
    (h : (w &&& ((3 <<< (i * 2)) % 2 ^ 32)) >>> (i * 2) = 3) :
    unpack_trit w i = 3 := by
  simp only [unpack_trit]
  rw [h]
  norm_num

/-- Witness for `unpack_trit_code3_raw` at container 3, index 0. -/
theorem unpack_trit_code3_raw_witness : unpack_trit 3 0 = 3 :=
  unpack_trit_code3_raw 3 0 (by decide)

/-- Claim C4: for every 64-bit rotation sample, when the decoded key trit is
`+1` the applied (mod-`N`-reduced) rotation amount is congruent to minus the
sample, and when it is `-1`, to plus the sample (source line 60). -/
theorem rotation_sign_convention (a : ℤ) (h1 : -2 ^ 63 ≤ a) (h2 : a < 2 ^ 63) :
    computeRot 1 a ≡ -a [ZMOD (N : ℤ)] ∧ computeRot (-1) a ≡ a [ZMOD (N : ℤ)] := by
  constructor
  · have h := computeRot_modEq 1 a
    simpa using h
  · have h := computeRot_modEq (-1) a
    norm_num at h
    exact h

/-- Witness for `rotation_sign_convention` at sample 5. -/
theorem rotation_sign_convention_witness :
    computeRot 1 5 ≡ -5 [ZMOD (N : ℤ)] ∧ computeRot (-1) 5 ≡ 5 [ZMOD (N : ℤ)] :=
  rotation_sign_convention 5 (by norm_num) (by norm_num)

/-- Claim C5, evaluated at the failing input.  The claim: two sequential
blind-rotation steps with amounts `r1` then `r2` equal one step with amount
`(r1+r2) mod N`.  With the dummy key (all trits `-1`, so the amount equals
the sample), accumulator `i ↦ i+1`, two steps of 128 then one step of 256:
at position 256 the two-step run yields `-1921` and the one-step run
`-1793`, so the composition law fails on the kernel. -/
theorem rotation_composition_fails :
    sparse_blind_rotation_kernel dummyBk [(0, 128), (2, 128)] seqAcc 256 = -1921 ∧
    sparse_blind_rotation_kernel dummyBk [(0, 256)] seqAcc 256 = -1793 ∧
    sparse_blind_rotation_kernel dummyBk [(0, 128), (2, 128)] seqAcc 256 ≠
      sparse_blind_rotation_kernel dummyBk [(0, 256)] seqAcc 256 := by
  refine ⟨by decide, by decide, by decide⟩

/-- Claim C6: for every packed word and trit position within it, decoding
follows the canonical mapping — code 0 yields trit 0, code 1 yields `+1`,
code 2 yields `-1`. -/
theorem unpack_trit_canonical (w i : ℕ) (hi : i < 16) :
    ((w >>> (i * 2)) &&& 3 = 0 → unpack_trit w i = 0) ∧
    ((w >>> (i * 2)) &&& 3 = 1 → unpack_trit w i = 1) ∧
    ((w >>> (i * 2)) &&& 3 = 2 → unpack_trit w i = -1) := by
  have he := extracted_shift_form w i hi
  refine ⟨fun h => ?_, fun h => ?_, fun h => ?_⟩ <;>
    simp only [unpack_trit] <;> rw [he, h] <;> norm_num

/-- Witness for `unpack_trit_canonical`: word 36 = `0b100100` holds codes
0, 1, 2 at positions 0, 1, 2. -/
theorem unpack_trit_canonical_witness :
    unpack_trit 36 0 = 0 ∧ unpack_trit 36 1 = 1 ∧ unpack_trit 36 2 = -1 :=
  ⟨(unpack_trit_canonical 36 0 (by decide)).1 (by decide),
   (unpack_trit_canonical 36 1 (by decide)).2.1 (by decide),
   (unpack_trit_canonical 36 2 (by decide)).2.2 (by decide)⟩

/-- Claim C7: for every 64-bit sample and any decoded trit value, the
rotation amount actually used lies in `[0, N)` and is congruent mod `N` to
the signed amount selected by the trit's sign, despite the narrowing of the
64-bit sample to a 32-bit `int` before reduction (source lines 60-62). -/
theorem rotation_amount_reduced (s_i a : ℤ) (h1 : -2 ^ 63 ≤ a) (h2 : a < 2 ^ 63) :
    (0 ≤ computeRot s_i a ∧ computeRot s_i a < (N : ℤ)) ∧
    computeRot s_i a ≡ (if s_i = 1 then -a else a) [ZMOD (N : ℤ)] :=
  ⟨computeRot_range s_i a, computeRot_modEq s_i a⟩

/-- Witness for `rotation_amount_reduced` at trit `+1`, sample 3000. -/
theorem rotation_amount_reduced_witness :
    (0 ≤ computeRot 1 3000 ∧ computeRot 1 3000 < (N : ℤ)) ∧
    computeRot 1 3000 ≡ (if (1 : ℤ) = 1 then -3000 else 3000) [ZMOD (N : ℤ)] :=
  rotation_amount_reduced 1 3000 (by norm_num) (by norm_num)

/-- Claim C8: `sparse_ternary_fma` computes `C[i] = A[i] * decode(B_trit[i])`
for every `i` (as an `Option`, propagating the decode error on reserved
codes), and on the spec's concrete scenario — `N = 8`, `A = [1..8]`, trits
`[+1,0,-1,0,0,+1,0,-1]` — it yields `C = [1,0,-3,0,0,6,0,-8]`. -/
theorem sparse_ternary_fma_spec :
    (∀ (A : ℕ → ℤ) (B : ℕ → ℕ) (i : ℕ),
      sparse_ternary_fma A B i =
        (decode_trit
          ((B (i / PACKING_FACTOR) >>> ((i % PACKING_FACTOR) * 2)) &&& 3)).map
          (fun t => A i * t)) ∧
    (sparse_ternary_fma seqAcc examplePackedB 0 = some 1 ∧
     sparse_ternary_fma seqAcc examplePackedB 1 = some 0 ∧
     sparse_ternary_fma seqAcc examplePackedB 2 = some (-3) ∧
     sparse_ternary_fma seqAcc examplePackedB 3 = some 0 ∧
     sparse_ternary_fma seqAcc examplePackedB 4 = some 0 ∧
     sparse_ternary_fma seqAcc examplePackedB 5 = some 6 ∧
     sparse_ternary_fma seqAcc examplePackedB 6 = some 0 ∧
     sparse_ternary_fma seqAcc examplePackedB 7 = some (-8)) := by
  constructor
  · intro A B i
    unfold sparse_ternary_fma
    have h3 : (B (i / PACKING_FACTOR) >>> ((i % PACKING_FACTOR) * 2)) &&& 3 ≤ 3 :=
      Nat.and_le_right
    set c := (B (i / PACKING_FACTOR) >>> ((i % PACKING_FACTOR) * 2)) &&& 3 with hc
    have h4 : c = 0 ∨ c = 1 ∨ c = 2 ∨ c = 3 := by omega
    rcases h4 with h | h | h | h <;> rw [h] <;> simp [decode_trit]
  · decide

/-- Claim C9: a blind-rotation step whose sample is a multiple of `N` is the
identity on the accumulator, whether the key trit decodes to `+1` or `-1`:
the reduced rotation amount is 0 and every chunk of the in-place pass copies
each element onto itself. -/
theorem step_identity_on_multiple (d_bk : ℕ → ℕ) (acc : ℕ → ℤ) (idx : ℕ) (a : ℤ)
    (h1 : -2 ^ 63 ≤ a) (h2 : a < 2 ^ 63) (h3 : (N : ℤ) ∣ a)
    (h4 : unpack_trit (d_bk (idx / PACKING_FACTOR)) (idx % PACKING_FACTOR) = 1 ∨
          unpack_trit (d_bk (idx / PACKING_FACTOR)) (idx % PACKING_FACTOR) = -1)
    (i : ℕ) :
    kernelStep d_bk acc (idx, a) i = acc i := by
  have h0 := computeRot_eq_zero_of_dvd
    (unpack_trit (d_bk (idx / PACKING_FACTOR)) (idx % PACKING_FACTOR)) a h3
  simp [kernelStep, h0, rotateInPlace_zero]

/-- Witness for `step_identity_on_multiple`: dummy key (trit `-1` at position
0), sample 4096 = 2·2048, element 7 unchanged. -/
theorem step_identity_on_multiple_witness :
    kernelStep dummyBk seqAcc (0, 4096) 7 = seqAcc 7 :=
  step_identity_on_multiple dummyBk seqAcc 0 4096 (by norm_num) (by norm_num)
    ⟨2, by norm_num [N]⟩ (Or.inr (by decide)) 7

/-- Claim C10: with zero nonzero positions the kernel's step loop runs no
iterations, and the load / write-back copy leaves every accumulator element
with its original value. -/
theorem kernel_zero_weight_identity (d_bk : ℕ → ℕ) (acc : ℕ → ℤ) (i : ℕ) :
    sparse_blind_rotation_kernel d_bk [] acc i = acc i := rfl

end SparseTernaryFMA
